import Mathlib

/-!
# go-docker-demo: a periodic logger with an optional status HTTP server

A shallow embedding of `src/main.go` and the properties of its behaviour.

Conventions of the embedding.

* Go's `int`, `int64` and `time.Duration` are modelled as `Int` together with an
  explicit two's-complement wrap `wrapInt64` wherever the source does arithmetic
  (the development fixes a 64-bit platform, `strconv.IntSize = 64`).
* The values of the environment and the strings of the configuration built by
  `init` are modelled by Lean `String`s, that is by the sequence of the code
  points of a valid UTF-8 text; `len(s)` is `String.utf8ByteSize`.
* The health endpoint writes the bytes of the hostname as they are, so it is
  modelled over Go strings proper: `GoString` is a sequence of bytes, valid
  UTF-8 or not, `RawConfig` is the configuration with its strings as bytes, and
  `Config.raw` gives the bytes of a configuration of texts.
* The process environment is a partial map from variable names to values;
  `os.Getenv` returns the empty string for an unset variable.
* Effects (log lines, standard output, handler registration, listening, a
  panic) are recorded as a list of `Event`s in program order.  A log line is
  recorded by its format string and its arguments, exactly as they appear in
  the source, rather than by the rendered text.
* The clock is an input: a monotonic clock reading is an `Int` number of
  nanoseconds, and the texts produced by `time.Time.Format` are taken as given
  strings.
* The functions of Go's standard library that the program calls
  (`strconv.Atoi`, `time.Since`, `time.Duration.Truncate`, `time.NewTicker`) are
  modelled after their Go implementation.
* The logging loop never returns; a run is observed over a finite list of
  ticker deliveries, and the events of the main goroutine and of the server
  goroutine are recorded separately, without an interleaving.
-/

namespace GoDockerDemo

/-! ## Machine integers -/

/-- Largest value of Go's `int` / `int64` on a 64-bit platform. -/
def maxInt64 : Int := 9223372036854775807

/-- Smallest value of Go's `int` / `int64` on a 64-bit platform. -/
def minInt64 : Int := -9223372036854775808

/-- Largest value of Go's `uint64`. -/
def maxUint64 : Nat := 18446744073709551615

/-- Membership in the range of a 64-bit signed integer. -/
def isInt64 (x : Int) : Prop := minInt64 ≤ x ∧ x ≤ maxInt64

instance (x : Int) : Decidable (isInt64 x) := by
  unfold isInt64; exact inferInstance

/-- Two's-complement reduction of a mathematical integer to `int64`: what Go's
`+`, `-`, `*` and `++` compute on 64-bit signed operands. -/
def wrapInt64 (x : Int) : Int := (x + 9223372036854775808) % 18446744073709551616 - 9223372036854775808

/-- Go's `%` on signed integers truncates towards zero. -/
def goMod (a b : Int) : Int := Int.tmod a b

/-! ## Environment and `getEnv` -/

/-- Process environment: `none` for an unset variable. -/
abbrev Env := String → Option String

/-- Go's `os.Getenv`: the value of the variable, or `""` when it is unset. -/
def Getenv (env : Env) (key : String) : String := (env key).getD ""

/-- Source `getEnv` (main.go 43-48). -/
def getEnv (env : Env) (key defaultValue : String) : String :=
  let value := Getenv env key
  if value ≠ "" then value else defaultValue

/-! ## `strconv.Atoi` -/

/-- The two kinds of `strconv.NumError` that `Atoi` reports. -/
inductive NumErr where
  | badSyntax
  | outOfRange
  deriving DecidableEq, Repr

/-- Decimal value of a digit character, `none` for any other character. -/
def digitVal (c : Char) : Option Nat :=
  if 48 ≤ c.toNat ∧ c.toNat ≤ 57 then some (c.toNat - 48) else none

/-- Whether the character is `+` or `-`. -/
def isSign (c : Char) : Bool := c.toNat = 43 || c.toNat = 45

/-- Fast path of `strconv.Atoi`: the digit loop `n = n*10 + int(ch)`, which
fails with a syntax error on the first non-digit. -/
def atoiFastLoop : List Char → Int → Option Int
  | [], n => some n
  | c :: cs, n =>
    match digitVal c with
    | none => none
    | some d => atoiFastLoop cs (n * 10 + d)

/-- The digit loop of `strconv.ParseUint(s, 10, 64)`.  A character that is not a
decimal digit is a syntax error; an overflow of the accumulator returns at once
with the largest value and a range error, without looking at the rest. -/
def parseUintLoop : List Char → Nat → Nat × Option NumErr
  | [], n => (n, none)
  | c :: cs, n =>
    match digitVal c with
    | none => (0, some NumErr.badSyntax)
    | some d =>
      if n ≥ maxUint64 / 10 + 1 then (maxUint64, some NumErr.outOfRange)
      else if n * 10 + d > maxUint64 then (maxUint64, some NumErr.outOfRange)
      else parseUintLoop cs (n * 10 + d)

/-- Go's `strconv.ParseUint(s, 10, 64)`. -/
def ParseUint (s : List Char) : Nat × Option NumErr :=
  match s with
  | [] => (0, some NumErr.badSyntax)
  | _ => parseUintLoop s 0

/-- Go's `strconv.ParseInt(s, 10, 0)` with `IntSize = 64`: an optional sign,
then `ParseUint`; a value out of range is replaced by the nearest bound and
reported as a range error. -/
def ParseInt (s : List Char) : Int × Option NumErr :=
  match s with
  | [] => (0, some NumErr.badSyntax)
  | c :: cs =>
    let neg : Bool := c.toNat = 45
    let body := if isSign c then cs else c :: cs
    match ParseUint body with
    | (_, some NumErr.badSyntax) => (0, some NumErr.badSyntax)
    | (un, _) =>
      if !neg ∧ un ≥ 9223372036854775808 then (maxInt64, some NumErr.outOfRange)
      else if neg ∧ un > 9223372036854775808 then (minInt64, some NumErr.outOfRange)
      else (if neg then -(un : Int) else (un : Int), none)

/-- Go's `strconv.Atoi` on a 64-bit platform.  Strings of 1 to 18 bytes take the
fast path; all others go through `ParseInt`.  The result is the pair
`(value, error)` that Go returns. -/
def Atoi (s : String) : Int × Option NumErr :=
  let sLen := s.utf8ByteSize
  if 0 < sLen ∧ sLen < 19 then
    match s.data with
    | [] => (0, some NumErr.badSyntax)
    | c :: cs =>
      let body := if isSign c then cs else c :: cs
      if body.length < 1 then (0, some NumErr.badSyntax)
      else
        match atoiFastLoop body 0 with
        | none => (0, some NumErr.badSyntax)
        | some n => (if c.toNat = 45 then -n else n, none)
  else ParseInt s.data

/-! ## Configuration -/

/-- Source `Config` (main.go 13-20).  `StartTime` is the monotonic clock reading
of the `time.Time` captured by `init`. -/
structure Config where
  LogInterval : Int
  ServerPort : Int
  LogMessage : String
  IncludeHTTP : Bool
  Hostname : String
  StartTime : Int
  deriving DecidableEq, Repr

/-- An argument of a formatted print. -/
inductive Arg where
  | str (s : String)
  | int (n : Int)
  | bool (b : Bool)
  | duration (d : Int)
  deriving DecidableEq, Repr

/-- An observable effect of the program. -/
inductive Event where
  | log (format : String) (args : List Arg)
  | stdout (text : String)
  | handleFunc (pattern : String)
  | listen (format : String) (args : List Arg)
  | fatal (format : String)
  | goPanic (msg : String)
  deriving DecidableEq, Repr

/-- The configuration built by source `init` (main.go 26-36); `now` is the clock
reading of `time.Now()`.  The errors of both `Atoi` calls are discarded. -/
def initConfig (env : Env) (now : Int) : Config :=
  let interval := (Atoi (getEnv env "LOG_INTERVAL" "1")).1
  let port := (Atoi (getEnv env "SERVER_PORT" "8080")).1
  { LogInterval := interval
    ServerPort := port
    LogMessage := getEnv env "LOG_MESSAGE" "Logger is running"
    IncludeHTTP := getEnv env "INCLUDE_HTTP" "true" == "true"
    Hostname := getEnv env "HOSTNAME" "unknown"
    StartTime := now }

/-- Source `init` (main.go 24-41): the configuration and the two log lines. -/
def init (env : Env) (now : Int) : Config × List Event :=
  let config := initConfig env now
  (config,
   [Event.log "Logger配置加载完成: 间隔=%d秒, 端口=%d, HTTP服务=%v"
      [Arg.int config.LogInterval, Arg.int config.ServerPort, Arg.bool config.IncludeHTTP],
    Event.log "主机名: %s" [Arg.str config.Hostname]])

/-! ## Time -/

/-- Go's `time.Second` as a `time.Duration` (nanoseconds). -/
def Second : Int := 1000000000

/-- The subtraction of monotonic clock readings of Go's package `time`
(`subMono`), used by `time.Since` for a start time that carries a monotonic
reading, as `time.Now()` always does: the wrapped difference, replaced by the
largest or smallest duration when the true difference is out of range. -/
def subMono (t u : Int) : Int :=
  let d := wrapInt64 (t - u)
  if d < 0 ∧ t > u then maxInt64
  else if d > 0 ∧ t < u then minInt64
  else d

/-- Go's `time.Since(start)` when the clock reads `now`. -/
def Since (now start : Int) : Int := subMono now start

/-- Go's `Duration.Truncate`. -/
def Truncate (d m : Int) : Int :=
  if m ≤ 0 then d else wrapInt64 (d - goMod d m)

/-- The duration expression `time.Duration(config.LogInterval) * time.Second`
of main.go 71, an `int64` product. -/
def tickerDuration (config : Config) : Int := wrapInt64 (config.LogInterval * Second)

/-- Go's `time.NewTicker`: it panics on a non-positive duration, otherwise the
ticker has period `d`. -/
def NewTicker (d : Int) : Except String Int :=
  if d ≤ 0 then Except.error "non-positive interval for NewTicker" else Except.ok d

/-! ## The logging loop -/

/-- One delivery on `ticker.C` together with what the loop body reads from the
clock while handling it. -/
structure Tick where
  /-- The instant, in nanoseconds of the runtime clock, for which the runtime
  timer behind the ticker scheduled this delivery. -/
  sched : Int
  /-- The monotonic clock reading used by `time.Since` in the loop body. -/
  now : Int
  /-- The text of `time.Now().Format("2006-01-02 15:04:05")`. -/
  stamp : String
  deriving DecidableEq, Repr

/-- Format of the status line (main.go 78). -/
def statusFormat : String := "[%s] %s | 计数: %d | 运行: %s | 主机: %s"

/-- Format of the INFO annotation (main.go 87). -/
def infoFormat : String := "INFO: 已记录 %d 条日志消息"

/-- Format of the WARN annotation (main.go 90). -/
def warnFormat : String := "WARN: 这是一个警告级别的日志示例"

/-- Body of the `for range ticker.C` loop (main.go 76-91) run with counter value
`logCount`: the new counter value and the lines logged. -/
def tickBody (config : Config) (tick : Tick) (logCount : Int) : Int × List Event :=
  let logCount := wrapInt64 (logCount + 1)
  let uptime := Since tick.now config.StartTime
  let status := Event.log statusFormat
    [Arg.str tick.stamp, Arg.str config.LogMessage, Arg.int logCount,
     Arg.duration (Truncate uptime Second), Arg.str config.Hostname]
  let info := if goMod logCount 10 = 0 then [Event.log infoFormat [Arg.int logCount]] else []
  let warn := if goMod logCount 50 = 0 then [Event.log warnFormat []] else []
  (logCount, status :: (info ++ warn))

/-- The loop `for range ticker.C` (main.go 75-92) over the deliveries `ticks`,
entered with counter value `logCount`. -/
def forRange (config : Config) : List Tick → Int → List Event
  | [], _ => []
  | tick :: rest, logCount =>
    (tickBody config tick logCount).2 ++ forRange config rest (tickBody config tick logCount).1

/-- Source `startLogging` (main.go 70-93), observed over the deliveries
`ticks`: a panic when the ticker cannot be created, otherwise the lines of the
loop started with `logCount := 0`.  The loop itself never ends; `ticks` is the
part of the run that is observed. -/
def startLogging (config : Config) (ticks : List Tick) : List Event :=
  match NewTicker (tickerDuration config) with
  | Except.error msg => [Event.goPanic msg]
  | Except.ok _ => forRange config ticks 0

/-- The deliveries that the ticker created at main.go 71 can make.  The ticker
exists, that is its duration is positive (`time.NewTicker` panics otherwise);
the Go runtime schedules every delivery at an instant of its nanosecond clock,
a positive `int64`; and each later delivery is scheduled at least one period
after an earlier one.  Such a run has fewer than `2^63` deliveries, so the `int`
counter of the loop cannot wrap in it. -/
def TickerRun (config : Config) (ticks : List Tick) : Prop :=
  0 < tickerDuration config ∧
  (∀ t ∈ ticks, 0 < t.sched ∧ t.sched ≤ maxInt64) ∧
  ticks.Pairwise (fun a b => a.sched + tickerDuration config ≤ b.sched)

/-- Whether the event is an INFO annotation line. -/
def isInfo (e : Event) : Bool :=
  match e with
  | Event.log f _ => f == infoFormat
  | _ => false

/-- Whether the event is a WARN annotation line. -/
def isWarn (e : Event) : Bool :=
  match e with
  | Event.log f _ => f == warnFormat
  | _ => false

/-- The counter value carried by a status line: its third argument; `none` for
any other event. -/
def statusCount (e : Event) : Option Int :=
  match e with
  | Event.log f [_, _, Arg.int n, _, _] => if f == statusFormat then some n else none
  | _ => none

/-- The counter values carried by the status lines of a trace, in order. -/
def statusCounts (events : List Event) : List Int := events.filterMap statusCount

/-- The value of `logCount` after the loop has handled the deliveries `ticks`,
entered with counter value `logCount`. -/
def forRangeCount (config : Config) : List Tick → Int → Int
  | [], logCount => logCount
  | tick :: rest, logCount => forRangeCount config rest (tickBody config tick logCount).1

/-- The value of `logCount` in `startLogging` after the deliveries `ticks`: the
loop is entered with `logCount := 0` (main.go 74). -/
def logCountAfter (config : Config) (ticks : List Tick) : Int := forRangeCount config ticks 0

instance (config : Config) (ticks : List Tick) : Decidable (TickerRun config ticks) := by
  unfold TickerRun; exact inferInstance

/-- A run of `n` deliveries of a ticker of period one second created at instant
0, each handled 100 nanoseconds after it was scheduled. -/
def secondTicks (n : Nat) : List Tick :=
  (List.range n).map (fun i =>
    { sched := ((i : Int) + 1) * 1000000000, now := ((i : Int) + 1) * 1000000000 + 100,
      stamp := "2024-01-01 00:00:00" })

/-! ## Go strings as bytes -/

/-- A Go string: a sequence of bytes, not necessarily valid UTF-8. -/
abbrev GoString := List UInt8

/-- The UTF-8 encoding of the code point `n`. -/
def utf8Encode (n : Nat) : GoString :=
  if n < 128 then [UInt8.ofNat n]
  else if n < 2048 then [UInt8.ofNat (192 + n / 64), UInt8.ofNat (128 + n % 64)]
  else if n < 65536 then
    [UInt8.ofNat (224 + n / 4096), UInt8.ofNat (128 + n / 64 % 64), UInt8.ofNat (128 + n % 64)]
  else
    [UInt8.ofNat (240 + n / 262144), UInt8.ofNat (128 + n / 4096 % 64),
     UInt8.ofNat (128 + n / 64 % 64), UInt8.ofNat (128 + n % 64)]

/-- The UTF-8 encoding of a list of characters. -/
def bytesOf : List Char → GoString
  | [] => []
  | c :: cs => utf8Encode c.toNat ++ bytesOf cs

/-- The Go string of a text: its UTF-8 encoding.  This is what a string literal of
the source denotes. -/
def bytes (s : String) : GoString := bytesOf s.data

/-- The configuration as the running process holds it: source `Config` (main.go
13-20) with its strings as Go strings.  `HOSTNAME` and `LOG_MESSAGE` can be set to
any bytes, so `Hostname` and `LogMessage` need not be valid UTF-8. -/
structure RawConfig where
  LogInterval : Int
  ServerPort : Int
  LogMessage : GoString
  IncludeHTTP : Bool
  Hostname : GoString
  StartTime : Int
  deriving DecidableEq, Repr

/-- The bytes of a configuration whose strings are texts. -/
def Config.raw (config : Config) : RawConfig :=
  { LogInterval := config.LogInterval
    ServerPort := config.ServerPort
    LogMessage := bytes config.LogMessage
    IncludeHTTP := config.IncludeHTTP
    Hostname := bytes config.Hostname
    StartTime := config.StartTime }

/-! ## The status server -/

/-- State of an `http.ResponseWriter`: the header map, the status code once the
header has been written, and the bytes of the body written so far. -/
structure Response where
  header : List (String × String)
  status : Option Nat
  body : GoString
  deriving DecidableEq, Repr

/-- A fresh response writer. -/
def Response.empty : Response := { header := [], status := none, body := [] }

/-- Go's `w.Header().Set(key, value)`. -/
def Response.setHeader (w : Response) (key value : String) : Response :=
  { w with header := (key, value) :: w.header.filter (fun kv => kv.1 != key) }

/-- Go's `w.Write`: the first write sends the header with status 200 unless a
status was written before. -/
def Response.write (w : Response) (text : GoString) : Response :=
  { w with status := some (w.status.getD 200), body := w.body ++ text }

/-- Value of a header, `none` when it is not set. -/
def Response.headerValue (w : Response) (key : String) : Option String :=
  (w.header.find? (fun kv => kv.1 == key)).map (fun kv => kv.2)

/-- Go's `fmt.Sprintf` for a format whose only verb is `%s` (bytes 37, 115),
applied to string arguments: each `%s` is replaced by the bytes of the next
argument, as they are; every other byte of the format is copied. -/
def Sprintf : GoString → List GoString → GoString
  | [], _ => []
  | [b], _ => [b]
  | b :: c :: rest, args =>
    if b.toNat = 37 ∧ c.toNat = 115 then
      match args with
      | a :: more => a ++ Sprintf rest more
      | [] => bytes "%!s(MISSING)" ++ Sprintf rest []
    else b :: Sprintf (c :: rest) args

/-- The format string of main.go 65. -/
def healthFormat : GoString :=
  bytes "\x7b\"status\":\"healthy\",\"timestamp\":\"%s\",\"hostname\":\"%s\",\"uptime\":\"%s\"\x7d"

/-- The bytes that `fmt.Fprintf` writes at main.go 65-66 for the three string
arguments. -/
def healthBody (timestamp hostname uptime : GoString) : GoString :=
  Sprintf healthFormat [timestamp, hostname, uptime]

/-- The uptime computed by source `healthHandler` (main.go 52) when the clock
reads `now`. -/
def healthUptime (config : Config) (now : Int) : Int := Since now config.StartTime

/-- Source `healthHandler` (main.go 51-67), on the configuration as the process
holds it.  `render` stands for `time.Duration.String`, `now` is the clock reading
of `time.Since` and `timestamp` the bytes of `time.Now().Format(time.RFC3339)`.
The uptime is that of `healthUptime`: `time.Since(config.StartTime)`. -/
def healthHandler (render : Int → GoString) (config : RawConfig) (now : Int)
    (timestamp : GoString) (w : Response) : Response :=
  let uptime := Since now config.StartTime
  let w := w.setHeader "Content-Type" "application/json"
  w.write (healthBody timestamp config.Hostname (render uptime))

/-- Notice logged by `startHTTPServer` when the server is disabled (main.go 98). -/
def disabledNotice : Event := Event.log "HTTP服务已禁用" []

/-- Source `startHTTPServer` (main.go 96-132).  `bindOk` tells whether
`http.ListenAndServe` could bind the port; when it can, the call serves for the
rest of the process and logs nothing more.  The two registrations are recorded
by their patterns; the page served at `/` is not modelled. -/
def startHTTPServer (config : Config) (bindOk : Bool) : List Event :=
  if !config.IncludeHTTP then [disabledNotice]
  else
    [Event.handleFunc "/health",
     Event.handleFunc "/",
     Event.log "HTTP服务器启动，监听端口 %d" [Arg.int config.ServerPort],
     Event.listen ":%d" [Arg.int config.ServerPort]]
    ++ (if bindOk then [] else [Event.fatal "HTTP服务器启动失败: %v"])

/-- What a run of the program does: the events of the main goroutine and, when
one is started, those of the goroutine running `startHTTPServer`. -/
structure Run where
  mainGoroutine : List Event
  serverGoroutine : Option (List Event)
  deriving DecidableEq, Repr

/-- The lines that source `main` prints before it starts anything (main.go
135-142). -/
def banner (config : Config) : List Event :=
  [Event.log "🚀 Go Logger Demo 启动中..." [],
   Event.log "📋 配置信息:" [],
   Event.log "  - 日志间隔: %d秒" [Arg.int config.LogInterval],
   Event.log "  - 日志消息: %s" [Arg.str config.LogMessage],
   Event.log "  - HTTP端口: %d" [Arg.int config.ServerPort],
   Event.log "  - 包含HTTP服务: %v" [Arg.bool config.IncludeHTTP],
   Event.log "  - 主机名: %s" [Arg.str config.Hostname],
   Event.log "🔧 按 Ctrl+C 停止程序" []]

/-- Source `main` (main.go 134-152), observed over the deliveries `ticks`: the
banner, then `go startHTTPServer()` when `IncludeHTTP` is set, then the greeting
on standard output and `startLogging`. -/
def main (config : Config) (bindOk : Bool) (ticks : List Tick) : Run :=
  { mainGoroutine := banner config ++ Event.stdout "Hello, World!" :: startLogging config ticks
    serverGoroutine :=
      if config.IncludeHTTP then some (startHTTPServer config bindOk) else none }

/-- All events of a run, those of the main goroutine first. -/
def Run.events (r : Run) : List Event := r.mainGoroutine ++ r.serverGoroutine.getD []

/-- Whether the event registers a handler. -/
def isHandleFunc (e : Event) : Bool :=
  match e with
  | Event.handleFunc _ => true
  | _ => false

/-- Whether the event is a call of `http.ListenAndServe`. -/
def isListen (e : Event) : Bool :=
  match e with
  | Event.listen _ _ => true
  | _ => false

/-- Whether the event is a panic. -/
def isPanic (e : Event) : Bool :=
  match e with
  | Event.goPanic _ => true
  | _ => false

/-! ## Reading a response body back as JSON

A reader for the JSON texts that are objects whose members all have string
values, which is the shape of the health body.  It works on the bytes of the
text and follows RFC 8259: white space between tokens, strings delimited by
double quotes (byte 34), the escapes introduced by a backslash (byte 92), and
no control character inside a string.  A string is read back as a Go string,
the way Go's `encoding/json` reads one: well-formed UTF-8 sequences (RFC 3629)
are kept, and every byte that does not begin one is replaced by the encoding of
U+FFFD.  An escape `\u` is read when it denotes a character on its own
(surrogate halves are not combined). -/

/-- A continuation byte of UTF-8: 128 to 191. -/
def isCont (b : UInt8) : Bool := decide (128 ≤ b.toNat) && decide (b.toNat ≤ 191)

/-- A well-formed two-byte sequence: lead byte 194 to 223, then a continuation. -/
def seq2 (b0 b1 : UInt8) : Bool :=
  decide (194 ≤ b0.toNat) && decide (b0.toNat ≤ 223) && isCont b1

/-- A well-formed three-byte sequence.  After the lead byte 224 the second byte
is at least 160 (no overlong form), after 237 it is at most 159 (no surrogate). -/
def seq3 (b0 b1 b2 : UInt8) : Bool :=
  ((decide (b0.toNat = 224) && decide (160 ≤ b1.toNat) && decide (b1.toNat ≤ 191)) ||
   (decide (225 ≤ b0.toNat) && decide (b0.toNat ≤ 236) && isCont b1) ||
   (decide (b0.toNat = 237) && decide (128 ≤ b1.toNat) && decide (b1.toNat ≤ 159)) ||
   (decide (238 ≤ b0.toNat) && decide (b0.toNat ≤ 239) && isCont b1)) && isCont b2

/-- A well-formed four-byte sequence.  After the lead byte 240 the second byte is
at least 144 (no overlong form), after 244 it is at most 143 (at most U+10FFFF). -/
def seq4 (b0 b1 b2 b3 : UInt8) : Bool :=
  ((decide (b0.toNat = 240) && decide (144 ≤ b1.toNat) && decide (b1.toNat ≤ 191)) ||
   (decide (241 ≤ b0.toNat) && decide (b0.toNat ≤ 243) && isCont b1) ||
   (decide (b0.toNat = 244) && decide (128 ≤ b1.toNat) && decide (b1.toNat ≤ 143))) &&
  isCont b2 && isCont b3

/-- Length of the well-formed sequence of two to four bytes that the byte `b`
begins when `bs` follows it; 0 when it begins none. -/
def seqLen (b : UInt8) (bs : GoString) : Nat :=
  match bs with
  | [] => 0
  | [b1] => if seq2 b b1 then 2 else 0
  | [b1, b2] => if seq2 b b1 then 2 else if seq3 b b1 b2 then 3 else 0
  | b1 :: b2 :: b3 :: _ =>
    if seq2 b b1 then 2 else if seq3 b b1 b2 then 3 else if seq4 b b1 b2 b3 then 4 else 0

/-- Whether the bytes are well-formed UTF-8 once the first `pending` bytes, the
rest of a sequence already recognised, are passed over. -/
def validUtf8From : GoString → Nat → Bool
  | [], pending => decide (pending = 0)
  | _ :: bs, pending + 1 => validUtf8From bs pending
  | b :: bs, 0 =>
    if b.toNat < 128 then validUtf8From bs 0
    else
      match seqLen b bs with
      | 0 => false
      | n + 1 => validUtf8From bs n

/-- Whether a Go string is valid UTF-8 (RFC 3629). -/
def validUtf8 (s : GoString) : Bool := validUtf8From s 0

/-- A Go string without double quote, backslash and control character. -/
def jsonPlain (s : GoString) : Bool :=
  s.all (fun b => b.toNat != 34 && b.toNat != 92 && decide (32 ≤ b.toNat))

/-- A Go string that a JSON string holds as it is: valid UTF-8 without double
quote, backslash and control character. -/
def jsonVerbatim (s : GoString) : Bool := validUtf8 s && jsonPlain s

/-- A text without double quote, backslash and control character. -/
def textPlain (s : String) : Bool :=
  s.data.all (fun c => c.toNat != 34 && c.toNat != 92 && decide (32 ≤ c.toNat))

/-- The UTF-8 encoding of U+FFFD, the replacement character. -/
def replacement : GoString := [239, 191, 189]

/-- JSON white space: space, tab, line feed, carriage return. -/
def isJsonSpace (b : UInt8) : Bool :=
  b.toNat = 32 || b.toNat = 9 || b.toNat = 10 || b.toNat = 13

/-- Drops leading white space. -/
def skipSpace : GoString → GoString
  | [] => []
  | b :: bs => if isJsonSpace b then skipSpace bs else b :: bs

/-- The byte denoted by a one-letter escape: quote, backslash, slash, `b`, `f`,
`n`, `r`, `t`. -/
def unescape (b : UInt8) : Option UInt8 :=
  if b.toNat = 34 then some 34
  else if b.toNat = 92 then some 92
  else if b.toNat = 47 then some 47
  else if b.toNat = 98 then some 8
  else if b.toNat = 102 then some 12
  else if b.toNat = 110 then some 10
  else if b.toNat = 114 then some 13
  else if b.toNat = 116 then some 9
  else none

/-- Value of a hexadecimal digit. -/
def hexVal (b : UInt8) : Option Nat :=
  if 48 ≤ b.toNat ∧ b.toNat ≤ 57 then some (b.toNat - 48)
  else if 97 ≤ b.toNat ∧ b.toNat ≤ 102 then some (b.toNat - 87)
  else if 65 ≤ b.toNat ∧ b.toNat ≤ 70 then some (b.toNat - 55)
  else none

/-- The bytes of the character written `\uXXXX`, when the four digits denote a
character that is not a surrogate half. -/
def hexChar (a b c d : UInt8) : Option GoString :=
  match hexVal a, hexVal b, hexVal c, hexVal d with
  | some x, some y, some z, some w =>
    let n := ((x * 16 + y) * 16 + z) * 16 + w
    if 55296 ≤ n ∧ n ≤ 57343 then none else some (utf8Encode n)
  | _, _, _, _ => none

/-- Reads the inside of a JSON string, after its opening quote: the decoded bytes
(appended to `acc`) and the text after the closing quote.  The next `pending`
bytes are the rest of a UTF-8 sequence already recognised and are copied. -/
def readChars : GoString → Nat → GoString → Option (GoString × GoString)
  | [], _, _ => none
  | b :: bs, pending + 1, acc => readChars bs pending (acc ++ [b])
  | b :: bs, 0, acc =>
    if b.toNat = 34 then some (acc, bs)
    else if b.toNat = 92 then
      match bs with
      | [] => none
      | e :: rest =>
        if e.toNat = 117 then
          match rest with
          | h1 :: h2 :: h3 :: h4 :: rest4 =>
            match hexChar h1 h2 h3 h4 with
            | some x => readChars rest4 0 (acc ++ x)
            | none => none
          | _ => none
        else
          match unescape e with
          | some x => readChars rest 0 (acc ++ [x])
          | none => none
    else if b.toNat < 32 then none
    else if b.toNat < 128 then readChars bs 0 (acc ++ [b])
    else
      match seqLen b bs with
      | 0 => readChars bs 0 (acc ++ replacement)
      | n + 1 => readChars bs n (acc ++ [b])

/-- Reads a JSON string: the decoded Go string and the rest of the input. -/
def readString : GoString → Option (GoString × GoString)
  | [] => none
  | b :: bs => if b.toNat = 34 then readChars bs 0 [] else none

/-- Reads the members of an object after its opening brace, up to the end of
the text, which must follow the closing brace. -/
def readMembers : Nat → GoString → Option (List (GoString × GoString))
  | 0, _ => none
  | fuel + 1, s =>
    match readString (skipSpace s) with
    | none => none
    | some (k, s1) =>
      match skipSpace s1 with
      | [] => none
      | c :: s2 =>
        if c.toNat = 58 then
          match readString (skipSpace s2) with
          | none => none
          | some (v, s3) =>
            match skipSpace s3 with
            | [] => none
            | d :: s4 =>
              if d.toNat = 44 then (readMembers fuel s4).map (fun ms => (k, v) :: ms)
              else if d.toNat = 125 then (if skipSpace s4 = [] then some [(k, v)] else none)
              else none
        else none

/-- Reads a whole JSON text that is an object with string-valued members: the
list of its members in order, or `none` when the text is not such an object. -/
def readObject (s : GoString) : Option (List (GoString × GoString)) :=
  match skipSpace s with
  | [] => none
  | c :: s1 =>
    if c.toNat = 123 then
      match skipSpace s1 with
      | [] => none
      | d :: s2 =>
        if d.toNat = 125 then (if skipSpace s2 = [] then some [] else none)
        else readMembers s.length (d :: s2)
    else none

/-- Value of the member named `key` of a JSON text, when the text is an object
with string-valued members that has one. -/
def jsonField (s : GoString) (key : GoString) : Option GoString :=
  match readObject s with
  | none => none
  | some ms => (ms.find? (fun kv => kv.1 == key)).map (fun kv => kv.2)

/-- Whether the event is a fatal log (`log.Fatalf`, which exits the process). -/
def isFatal (e : Event) : Bool :=
  match e with
  | Event.fatal _ => true
  | _ => false

/-- Environment in which only the variable `key` is set, to `value`. -/
def envWith (key value : String) : Env := fun k => if k = key then some value else none

/-! # Properties -/

/-! ## `getEnv` and `Atoi` -/

theorem getEnv_unset (env : Env) (key d : String) (h : env key = none ∨ env key = some "") :
    getEnv env key d = d := by
  rcases h with h | h <;> simp [getEnv, Getenv, h]

theorem getEnv_set (env : Env) (key d v : String) (h : env key = some v) (hv : v ≠ "") :
    getEnv env key d = v := by
  simp [getEnv, Getenv, h, hv]

theorem Atoi_one : Atoi "1" = (1, none) := by decide

theorem Atoi_8080 : Atoi "8080" = (8080, none) := by decide

theorem Atoi_empty : Atoi "" = (0, some NumErr.badSyntax) := by decide

theorem parseUintLoop_badSyntax (s : List Char) (n : Nat)
    (h : (parseUintLoop s n).2 = some NumErr.badSyntax) : (parseUintLoop s n).1 = 0 := by
  induction s generalizing n with
  | nil => simp [parseUintLoop] at h
  | cons c cs ih =>
    unfold parseUintLoop at h ⊢
    cases hd : digitVal c with
    | none => simp
    | some d =>
      simp only [hd] at h ⊢
      split_ifs at h ⊢ with h1 h2
      · simp at h
      · simp at h
      · exact ih _ h

theorem parseUintLoop_outOfRange (s : List Char) (n : Nat)
    (h : (parseUintLoop s n).2 = some NumErr.outOfRange) : (parseUintLoop s n).1 = maxUint64 := by
  induction s generalizing n with
  | nil => simp [parseUintLoop] at h
  | cons c cs ih =>
    unfold parseUintLoop at h ⊢
    cases hd : digitVal c with
    | none => simp [hd] at h
    | some d =>
      simp only [hd] at h ⊢
      split_ifs at h ⊢ with h1 h2
      · rfl
      · rfl
      · exact ih _ h

theorem ParseInt_badSyntax (s : List Char) (h : (ParseInt s).2 = some NumErr.badSyntax) :
    (ParseInt s).1 = 0 := by
  unfold ParseInt at h ⊢
  split at h
  · rfl
  · rename_i c cs
    simp only [] at h ⊢
    split at h
    · simp_all
    · rename_i un e hne heq
      split_ifs at h <;> simp at h

theorem Atoi_badSyntax (s : String) (h : (Atoi s).2 = some NumErr.badSyntax) :
    (Atoi s).1 = 0 := by
  unfold Atoi at h ⊢
  by_cases h1 : 0 < s.utf8ByteSize ∧ s.utf8ByteSize < 19
  · simp only [h1, and_self, if_true] at h ⊢
    cases hd : s.data with
    | nil => simp
    | cons c cs =>
      simp only [hd] at h ⊢
      by_cases hb : (if isSign c = true then cs else c :: cs).length < 1
      · simp [hb]
      · simp only [hb, if_false] at h ⊢
        cases hl : atoiFastLoop (if isSign c = true then cs else c :: cs) 0 with
        | none => simp
        | some n => simp [hl] at h
  · simp only [h1, if_false] at h ⊢
    exact ParseInt_badSyntax _ h

theorem ParseInt_outOfRange (s : List Char) (h : (ParseInt s).2 = some NumErr.outOfRange) :
    (ParseInt s).1 = maxInt64 ∨ (ParseInt s).1 = minInt64 := by
  unfold ParseInt at h ⊢
  split at h
  · simp at h
  · rename_i c cs
    simp only [] at h ⊢
    split at h
    · simp at h
    · rename_i un e hne heq
      split_ifs at h ⊢ <;> simp_all

theorem Atoi_outOfRange (s : String) (h : (Atoi s).2 = some NumErr.outOfRange) :
    (Atoi s).1 = maxInt64 ∨ (Atoi s).1 = minInt64 := by
  unfold Atoi at h ⊢
  by_cases h1 : 0 < s.utf8ByteSize ∧ s.utf8ByteSize < 19
  · simp only [h1, and_self, if_true] at h ⊢
    cases hd : s.data with
    | nil => simp [hd] at h
    | cons c cs =>
      simp only [hd] at h ⊢
      by_cases hb : (if isSign c = true then cs else c :: cs).length < 1
      · simp [hb] at h
      · simp only [hb, if_false] at h ⊢
        cases hl : atoiFastLoop (if isSign c = true then cs else c :: cs) 0 with
        | none => simp [hl] at h
        | some n => simp [hl] at h
  · simp only [h1, if_false] at h ⊢
    exact ParseInt_outOfRange _ h

/-! ## Configuration defaults and parse failures -/

/-- C3: for every environment, each field of the configuration built by `init`
takes its default when its variable is unset or set to the empty string
(`LogInterval` 1, `ServerPort` 8080, `LogMessage` "Logger is running",
`IncludeHTTP` true, `Hostname` "unknown"), and `getEnv` returns the value of the
variable when that value is non-empty and the default otherwise. -/
theorem init_defaults (env : Env) (now : Int) :
    ((env "LOG_INTERVAL" = none ∨ env "LOG_INTERVAL" = some "") →
      (init env now).1.LogInterval = 1) ∧
    ((env "SERVER_PORT" = none ∨ env "SERVER_PORT" = some "") →
      (init env now).1.ServerPort = 8080) ∧
    ((env "LOG_MESSAGE" = none ∨ env "LOG_MESSAGE" = some "") →
      (init env now).1.LogMessage = "Logger is running") ∧
    ((env "INCLUDE_HTTP" = none ∨ env "INCLUDE_HTTP" = some "") →
      (init env now).1.IncludeHTTP = true) ∧
    ((env "HOSTNAME" = none ∨ env "HOSTNAME" = some "") →
      (init env now).1.Hostname = "unknown") ∧
    (∀ key d v, env key = some v → v ≠ "" → getEnv env key d = v) ∧
    (∀ key d, (env key = none ∨ env key = some "") → getEnv env key d = d) := by
  refine ⟨?_, ?_, ?_, ?_, ?_, ?_, ?_⟩
  · intro h; simp [init, initConfig, getEnv_unset env _ _ h, Atoi_one]
  · intro h; simp [init, initConfig, getEnv_unset env _ _ h, Atoi_8080]
  · intro h; simp [init, initConfig, getEnv_unset env _ _ h]
  · intro h; simp [init, initConfig, getEnv_unset env _ _ h]
  · intro h; simp [init, initConfig, getEnv_unset env _ _ h]
  · intro key d v h hv; exact getEnv_set env key d v h hv
  · intro key d h; exact getEnv_unset env key d h

/-- C3 at concrete environments: with `HOSTNAME` set to the empty string and
everything else unset, all five fields take their defaults; `getEnv` returns a
non-empty value and falls back to the default for an unset variable. -/
theorem init_defaults_witness :
    (init (envWith "HOSTNAME" "") 0).1.LogInterval = 1 ∧
    (init (envWith "HOSTNAME" "") 0).1.ServerPort = 8080 ∧
    (init (envWith "HOSTNAME" "") 0).1.LogMessage = "Logger is running" ∧
    (init (envWith "HOSTNAME" "") 0).1.IncludeHTTP = true ∧
    (init (envWith "HOSTNAME" "") 0).1.Hostname = "unknown" ∧
    getEnv (envWith "HOSTNAME" "box1") "HOSTNAME" "unknown" = "box1" ∧
    getEnv (envWith "HOSTNAME" "box1") "LOG_MESSAGE" "Logger is running" = "Logger is running" :=
  ⟨(init_defaults (envWith "HOSTNAME" "") 0).1 (Or.inl (by decide)),
   (init_defaults (envWith "HOSTNAME" "") 0).2.1 (Or.inl (by decide)),
   (init_defaults (envWith "HOSTNAME" "") 0).2.2.1 (Or.inl (by decide)),
   (init_defaults (envWith "HOSTNAME" "") 0).2.2.2.1 (Or.inl (by decide)),
   (init_defaults (envWith "HOSTNAME" "") 0).2.2.2.2.1 (Or.inr (by decide)),
   (init_defaults (envWith "HOSTNAME" "box1") 0).2.2.2.2.2.1 "HOSTNAME" "unknown" "box1"
     (by decide) (by decide),
   (init_defaults (envWith "HOSTNAME" "box1") 0).2.2.2.2.2.2 "LOG_MESSAGE" "Logger is running"
     (Or.inl (by decide))⟩

/-- C4 fails as stated: the decimal text 9223372036854775808 is non-empty and
`Atoi` fails to parse it (range error), yet `init` stores 9223372036854775807,
not 0, in `LogInterval` (respectively `ServerPort`). -/
theorem init_range_error_not_zero :
    "9223372036854775808" ≠ "" ∧
    (Atoi "9223372036854775808").2 = some NumErr.outOfRange ∧
    (init (envWith "LOG_INTERVAL" "9223372036854775808") 0).1.LogInterval
      = 9223372036854775807 ∧
    (init (envWith "LOG_INTERVAL" "9223372036854775808") 0).1.LogInterval ≠ 0 ∧
    (init (envWith "SERVER_PORT" "9223372036854775808") 0).1.ServerPort
      = 9223372036854775807 ∧
    (init (envWith "SERVER_PORT" "9223372036854775808") 0).1.ServerPort ≠ 0 := by
  decide

/-- C4 as amended: for every non-empty string `s`, setting `LOG_INTERVAL`
(respectively `SERVER_PORT`) to `s` makes `init` store 0 in `LogInterval`
(respectively `ServerPort`) when `Atoi` rejects `s` with a syntax error, and
store the bound 9223372036854775807 or -9223372036854775808 when `Atoi` rejects
`s` with a range error; `init` surfaces no error: its events are log lines. -/
theorem init_parse_failure (env : Env) (now : Int) (s : String) (hs : s ≠ "") :
    (env "LOG_INTERVAL" = some s →
      ((Atoi s).2 = some NumErr.badSyntax → (init env now).1.LogInterval = 0) ∧
      ((Atoi s).2 = some NumErr.outOfRange →
        (init env now).1.LogInterval = maxInt64 ∨ (init env now).1.LogInterval = minInt64)) ∧
    (env "SERVER_PORT" = some s →
      ((Atoi s).2 = some NumErr.badSyntax → (init env now).1.ServerPort = 0) ∧
      ((Atoi s).2 = some NumErr.outOfRange →
        (init env now).1.ServerPort = maxInt64 ∨ (init env now).1.ServerPort = minInt64)) ∧
    (∀ e ∈ (init env now).2, isPanic e = false ∧ isFatal e = false) := by
  refine ⟨?_, ?_, ?_⟩
  · intro h
    have hg : getEnv env "LOG_INTERVAL" "1" = s := getEnv_set env _ _ s h hs
    refine ⟨fun hb => ?_, fun hr => ?_⟩
    · simpa [init, initConfig, hg] using Atoi_badSyntax s hb
    · simpa [init, initConfig, hg] using Atoi_outOfRange s hr
  · intro h
    have hg : getEnv env "SERVER_PORT" "8080" = s := getEnv_set env _ _ s h hs
    refine ⟨fun hb => ?_, fun hr => ?_⟩
    · simpa [init, initConfig, hg] using Atoi_badSyntax s hb
    · simpa [init, initConfig, hg] using Atoi_outOfRange s hr
  · intro e he
    simp only [init, List.mem_cons, List.mem_singleton, List.not_mem_nil, or_false] at he
    rcases he with rfl | rfl <;> simp [isPanic, isFatal]

/-- C4 as amended, at concrete inputs: `LOG_INTERVAL=abc` is a syntax error and
gives `LogInterval` 0; `SERVER_PORT=9223372036854775808` is a range error and
gives one of the two bounds. -/
theorem init_parse_failure_witness :
    (init (envWith "LOG_INTERVAL" "abc") 0).1.LogInterval = 0 ∧
    ((init (envWith "SERVER_PORT" "9223372036854775808") 0).1.ServerPort = maxInt64 ∨
     (init (envWith "SERVER_PORT" "9223372036854775808") 0).1.ServerPort = minInt64) :=
  ⟨((init_parse_failure (envWith "LOG_INTERVAL" "abc") 0 "abc" (by decide)).1
      (by decide)).1 (by decide),
   ((init_parse_failure (envWith "SERVER_PORT" "9223372036854775808") 0
      "9223372036854775808" (by decide)).2.1 (by decide)).2 (by decide)⟩

/-! ## Uptime -/

theorem subMono_eq (t u : Int) (ht : isInt64 t) (hu : isInt64 u) :
    subMono t u = max minInt64 (min maxInt64 (t - u)) := by
  unfold isInt64 minInt64 maxInt64 at *
  unfold subMono wrapInt64 minInt64 maxInt64
  simp only []
  split_ifs <;> omega

/-- C9: for every fixed start instant and every two clock readings `t1 ≤ t2`
(all `int64` values) taken by successive calls of `healthHandler`, the uptime
computed by the first call is at most the uptime computed by the second. -/
theorem healthUptime_monotone (config : Config) (t1 t2 : Int) (h1 : isInt64 t1)
    (h2 : isInt64 t2) (hs : isInt64 config.StartTime) (h : t1 ≤ t2) :
    healthUptime config t1 ≤ healthUptime config t2 := by
  unfold healthUptime Since
  rw [subMono_eq _ _ h1 hs, subMono_eq _ _ h2 hs]
  unfold minInt64 maxInt64
  omega

/-- C9 at concrete readings: started at 5, read at 7000000000 and then at
9000000000. -/
theorem healthUptime_monotone_witness :
    healthUptime (initConfig (envWith "HOSTNAME" "box1") 5) 7000000000
      ≤ healthUptime (initConfig (envWith "HOSTNAME" "box1") 5) 9000000000 :=
  healthUptime_monotone (initConfig (envWith "HOSTNAME" "box1") 5) 7000000000 9000000000
    (by decide) (by decide) (by decide) (by decide)

/-! ## The annotations of one tick -/

theorem goMod_eq_zero_iff (c m : Int) : goMod c m = 0 ↔ c % m = 0 := by
  unfold goMod
  constructor
  · intro h
    exact Int.emod_eq_zero_of_dvd (Int.dvd_of_tmod_eq_zero h)
  · intro h
    exact Int.tmod_eq_zero_of_dvd (Int.dvd_of_emod_eq_zero h)

theorem statusFormat_ne_infoFormat : (statusFormat == infoFormat) = false := by decide

theorem statusFormat_ne_warnFormat : (statusFormat == warnFormat) = false := by decide

theorem infoFormat_ne_warnFormat : (infoFormat == warnFormat) = false := by decide

theorem warnFormat_ne_infoFormat : (warnFormat == infoFormat) = false := by decide

theorem infoFormat_ne_statusFormat : (infoFormat == statusFormat) = false := by decide

theorem warnFormat_ne_statusFormat : (warnFormat == statusFormat) = false := by decide

/-- C1: for every tick of `startLogging`, with `C` the counter value after the
increment, an INFO annotation line is emitted on that tick if and only if
`C mod 10 = 0`, and a WARN annotation line if and only if `C mod 50 = 0`.  This
holds for every counter value `C`, in particular for every `C ≥ 1`. -/
theorem tick_annotations (config : Config) (tick : Tick) (logCount : Int) :
    ((∃ e ∈ (tickBody config tick logCount).2, isInfo e = true) ↔
      (tickBody config tick logCount).1 % 10 = 0) ∧
    ((∃ e ∈ (tickBody config tick logCount).2, isWarn e = true) ↔
      (tickBody config tick logCount).1 % 50 = 0) := by
  simp only [tickBody]
  simp only [goMod_eq_zero_iff]
  constructor
  · by_cases h10 : wrapInt64 (logCount + 1) % 10 = 0 <;>
    by_cases h50 : wrapInt64 (logCount + 1) % 50 = 0 <;>
    simp [h10, h50, isInfo, statusFormat_ne_infoFormat, warnFormat_ne_infoFormat]
  · by_cases h10 : wrapInt64 (logCount + 1) % 10 = 0 <;>
    by_cases h50 : wrapInt64 (logCount + 1) % 50 = 0 <;>
    simp [h10, h50, isWarn, statusFormat_ne_warnFormat, infoFormat_ne_warnFormat]

/-! ## The ticker period -/

theorem Atoi_ok_ne_empty (s : String) (N : Int) (h : Atoi s = (N, none)) : s ≠ "" := by
  intro hs
  rw [hs, Atoi_empty] at h
  simp at h

theorem logInterval_of_parse (env : Env) (now : Int) (s : String) (N : Int)
    (h : env "LOG_INTERVAL" = some s) (hp : Atoi s = (N, none)) :
    (initConfig env now).LogInterval = N := by
  have hg : getEnv env "LOG_INTERVAL" "1" = s :=
    getEnv_set env _ _ s h (Atoi_ok_ne_empty s N hp)
  simp [initConfig, hg, hp]

theorem tickerDuration_small (config : Config) (h1 : 1 ≤ config.LogInterval)
    (h2 : config.LogInterval ≤ 9223372036) :
    tickerDuration config = config.LogInterval * 1000000000 := by
  unfold tickerDuration wrapInt64 Second
  omega

/-- C8 fails as stated: `LOG_INTERVAL=9223372037` parses to the positive integer
9223372037, but the `int64` product `time.Duration(N) * time.Second` wraps to
-9223372036709551616, which is not `N * 1000000000`, and no ticker is created:
`startLogging` panics. -/
theorem ticker_period_wraps :
    Atoi "9223372037" = (9223372037, none) ∧
    (init (envWith "LOG_INTERVAL" "9223372037") 0).1.LogInterval = 9223372037 ∧
    tickerDuration (init (envWith "LOG_INTERVAL" "9223372037") 0).1 = -9223372036709551616 ∧
    tickerDuration (init (envWith "LOG_INTERVAL" "9223372037") 0).1
      ≠ 9223372037 * 1000000000 ∧
    startLogging (init (envWith "LOG_INTERVAL" "9223372037") 0).1 []
      = [Event.goPanic "non-positive interval for NewTicker"] := by
  decide

/-- C8 as amended: for every integer `N` with `1 ≤ N ≤ 9223372036` that
`LOG_INTERVAL` parses to, the period of the ticker created by `startLogging` is
exactly `N` seconds: the `int64` product `time.Duration(N) * time.Second` equals
`N * 1000000000` without wrapping, and `time.NewTicker` accepts it. -/
theorem ticker_period_exact (env : Env) (now : Int) (s : String) (N : Int)
    (h : env "LOG_INTERVAL" = some s) (hp : Atoi s = (N, none))
    (h1 : 1 ≤ N) (h2 : N ≤ 9223372036) :
    tickerDuration (init env now).1 = N * 1000000000 ∧
    NewTicker (tickerDuration (init env now).1) = Except.ok (N * 1000000000) := by
  have hN : (initConfig env now).LogInterval = N := logInterval_of_parse env now s N h hp
  have hd : tickerDuration (initConfig env now) = N * 1000000000 := by
    rw [tickerDuration_small _ (by omega) (by omega), hN]
  refine ⟨by simpa [init] using hd, ?_⟩
  simp only [init, hd, NewTicker]
  rw [if_neg (by omega)]

/-- C8 as amended, at the largest admitted value `LOG_INTERVAL=9223372036`. -/
theorem ticker_period_exact_witness :
    tickerDuration (init (envWith "LOG_INTERVAL" "9223372036") 0).1
      = 9223372036 * 1000000000 ∧
    NewTicker (tickerDuration (init (envWith "LOG_INTERVAL" "9223372036") 0).1)
      = Except.ok (9223372036 * 1000000000) :=
  ticker_period_exact (envWith "LOG_INTERVAL" "9223372036") 0 "9223372036" 9223372036
    (by decide) (by decide) (by decide) (by decide)

/-! ## Termination of the process -/

theorem forRange_log (config : Config) (ticks : List Tick) (c : Int) :
    ∀ e ∈ forRange config ticks c, ∃ args,
      e = Event.log statusFormat args ∨ e = Event.log infoFormat args ∨
      e = Event.log warnFormat args := by
  induction ticks generalizing c with
  | nil => simp [forRange]
  | cons t rest ih =>
    intro e he
    simp only [forRange, List.mem_append] at he
    rcases he with he | he
    · simp only [tickBody, List.mem_cons, List.mem_append] at he
      rcases he with rfl | he | he
      · exact ⟨_, Or.inl rfl⟩
      · split_ifs at he
        · simp only [List.mem_singleton] at he
          exact ⟨_, Or.inr (Or.inl he)⟩
        · simp at he
      · split_ifs at he
        · simp only [List.mem_singleton] at he
          exact ⟨_, Or.inr (Or.inr he)⟩
        · simp at he
    · exact ih _ e he

theorem startLogging_of_positive (config : Config) (ticks : List Tick)
    (h : 0 < tickerDuration config) :
    startLogging config ticks = forRange config ticks 0 := by
  unfold startLogging NewTicker
  rw [if_neg (by omega)]

theorem startLogging_of_nonpositive (config : Config) (ticks : List Tick)
    (h : tickerDuration config ≤ 0) :
    startLogging config ticks = [Event.goPanic "non-positive interval for NewTicker"] := by
  unfold startLogging NewTicker
  rw [if_pos h]

theorem startHTTPServer_events (config : Config) (bindOk : Bool) :
    ∀ e ∈ startHTTPServer config bindOk,
      isPanic e = false ∧ (isFatal e = true → bindOk = false) := by
  unfold startHTTPServer disabledNotice
  cases bindOk <;> cases config.IncludeHTTP <;> simp [isPanic, isFatal]

theorem banner_events (config : Config) (bindOk : Bool) :
    ∀ e ∈ banner config ++ [Event.stdout "Hello, World!"],
      isPanic e = false ∧ (isFatal e = true → bindOk = false) := by
  simp [banner, isPanic, isFatal]

/-- C5 fails as stated: with `LOG_INTERVAL=abc` the configuration produced by
`init` has `LogInterval = 0`, which is not positive, and the ticker creation in
`startLogging` panics, so `main` ends in a panic although no listener failed. -/
theorem malformed_interval_panics :
    (init (envWith "LOG_INTERVAL" "abc") 0).1.LogInterval = 0 ∧
    ¬ 0 < (init (envWith "LOG_INTERVAL" "abc") 0).1.LogInterval ∧
    startLogging (init (envWith "LOG_INTERVAL" "abc") 0).1
        [{ sched := 1000000000, now := 1000000100, stamp := "2024-01-01 00:00:01" }]
      = [Event.goPanic "non-positive interval for NewTicker"] ∧
    (main (init (envWith "LOG_INTERVAL" "abc") 0).1 true []).events.any isPanic = true := by
  decide

/-- C5 as amended: for every environment in which `LOG_INTERVAL` is unset, empty,
or parsed by `Atoi` without error to an integer `N` with `1 ≤ N ≤ 9223372036`,
the configuration produced by `init` has `LogInterval > 0`, the ticker duration
is positive, so the ticker creation in `startLogging` does not panic, and in a
run of `main` no event is a panic and a fatal log occurs only when the listener
failed to bind. -/
theorem interval_positive_when_valid (env : Env) (now : Int)
    (h : (env "LOG_INTERVAL" = none ∨ env "LOG_INTERVAL" = some "") ∨
      ∃ s N, env "LOG_INTERVAL" = some s ∧ Atoi s = (N, none) ∧ 1 ≤ N ∧ N ≤ 9223372036) :
    0 < (init env now).1.LogInterval ∧
    0 < tickerDuration (init env now).1 ∧
    (∀ ticks, ∀ e ∈ startLogging (init env now).1 ticks, isPanic e = false) ∧
    (∀ bindOk ticks, ∀ e ∈ (main (init env now).1 bindOk ticks).events,
      isPanic e = false ∧ (isFatal e = true → bindOk = false)) := by
  have hN : 1 ≤ (initConfig env now).LogInterval ∧
      (initConfig env now).LogInterval ≤ 9223372036 := by
    rcases h with h | ⟨s, N, hs, hp, h1, h2⟩
    · have hg : getEnv env "LOG_INTERVAL" "1" = "1" := getEnv_unset env _ _ h
      simp [initConfig, hg, Atoi_one]
    · rw [logInterval_of_parse env now s N hs hp]
      exact ⟨h1, h2⟩
  have hd : 0 < tickerDuration (initConfig env now) := by
    rw [tickerDuration_small _ hN.1 hN.2]
    omega
  have hlog : ∀ ticks, ∀ e ∈ startLogging (initConfig env now) ticks,
      isPanic e = false ∧ isFatal e = false := by
    intro ticks e he
    rw [startLogging_of_positive _ _ hd] at he
    obtain ⟨args, rfl | rfl | rfl⟩ := forRange_log _ _ _ e he <;> simp [isPanic, isFatal]
  refine ⟨by simpa [init] using (by omega : 0 < (initConfig env now).LogInterval),
    by simpa [init] using hd, fun ticks e he => (hlog ticks e (by simpa [init] using he)).1, ?_⟩
  intro bindOk ticks e he
  simp only [init, Run.events, main, List.mem_append, List.mem_cons] at he
  rcases he with (he | he | he) | he
  · exact banner_events _ bindOk e (List.mem_append_left _ he)
  · subst he
    simp [isPanic, isFatal]
  · have := hlog ticks e he
    simp [this.1, this.2]
  · by_cases hh : (initConfig env now).IncludeHTTP = true
    · simp only [hh, if_true, Option.getD_some] at he
      exact startHTTPServer_events _ _ e he
    · simp [hh] at he

/-- C5 as amended, at concrete environments: the default environment and
`LOG_INTERVAL=30`. -/
theorem interval_positive_when_valid_witness :
    0 < (init (envWith "HOSTNAME" "box1") 0).1.LogInterval ∧
    0 < (init (envWith "LOG_INTERVAL" "30") 0).1.LogInterval :=
  ⟨(interval_positive_when_valid (envWith "HOSTNAME" "box1") 0 (Or.inl (Or.inl (by decide)))).1,
   (interval_positive_when_valid (envWith "LOG_INTERVAL" "30") 0
      (Or.inr ⟨"30", 30, by decide, by decide, by decide, by decide⟩)).1⟩

/-! ## The disabled status server -/

theorem disabledNotice_not_mem_forRange (config : Config) (ticks : List Tick) (c : Int) :
    disabledNotice ∉ forRange config ticks c := by
  intro hmem
  obtain ⟨args, h | h | h⟩ := forRange_log config ticks c _ hmem
  · exact absurd (Event.log.inj h).1 (by decide)
  · exact absurd (Event.log.inj h).1 (by decide)
  · exact absurd (Event.log.inj h).1 (by decide)

theorem startLogging_events (config : Config) (ticks : List Tick) :
    ∀ e ∈ startLogging config ticks,
      isHandleFunc e = false ∧ isListen e = false ∧ e ≠ disabledNotice := by
  intro e he
  by_cases hd : 0 < tickerDuration config
  · rw [startLogging_of_positive _ _ hd] at he
    refine ⟨?_, ?_, ?_⟩
    · obtain ⟨args, rfl | rfl | rfl⟩ := forRange_log _ _ _ e he <;> rfl
    · obtain ⟨args, rfl | rfl | rfl⟩ := forRange_log _ _ _ e he <;> rfl
    · intro h
      exact disabledNotice_not_mem_forRange config ticks 0 (h ▸ he)
  · rw [startLogging_of_nonpositive _ _ (by omega)] at he
    simp only [List.mem_singleton] at he
    subst he
    exact ⟨rfl, rfl, by simp [disabledNotice]⟩

/-- C7 fails as stated: with `INCLUDE_HTTP=false`, `main` does not call
`startHTTPServer` at all, so the disabled notice is logged zero times in the run,
not exactly once. -/
theorem main_disabled_logs_no_notice :
    (init (envWith "INCLUDE_HTTP" "false") 0).1.IncludeHTTP = false ∧
    (main (init (envWith "INCLUDE_HTTP" "false") 0).1 true
      [{ sched := 1000000000, now := 1000000100, stamp := "2024-01-01 00:00:01" }]).events.count
        disabledNotice = 0 ∧
    (main (init (envWith "INCLUDE_HTTP" "false") 0).1 true
      [{ sched := 1000000000, now := 1000000100, stamp := "2024-01-01 00:00:01" }]).events.count
        disabledNotice ≠ 1 := by
  decide

/-- C7 as amended: for every configuration with `IncludeHTTP` false, running
`main` starts no server goroutine and performs no handler registration and no
listen, and the disabled notice does not occur in the run, because `main` does
not call `startHTTPServer`; `startHTTPServer` itself, called with such a
configuration, logs the disabled notice exactly once and does nothing else. -/
theorem main_http_disabled (config : Config) (bindOk : Bool) (ticks : List Tick)
    (h : config.IncludeHTTP = false) :
    (main config bindOk ticks).serverGoroutine = none ∧
    (∀ e ∈ (main config bindOk ticks).events, isHandleFunc e = false ∧ isListen e = false) ∧
    (main config bindOk ticks).events.count disabledNotice = 0 ∧
    startHTTPServer config bindOk = [disabledNotice] := by
  have hall : ∀ e ∈ (main config bindOk ticks).events,
      isHandleFunc e = false ∧ isListen e = false ∧ e ≠ disabledNotice := by
    intro e he
    simp only [Run.events, main, h, Bool.false_eq_true, if_false, Option.getD_none,
      List.append_nil, List.mem_append, List.mem_cons] at he
    rcases he with he | he | he
    · simp only [banner, List.mem_cons, List.not_mem_nil, or_false] at he
      rcases he with rfl | rfl | rfl | rfl | rfl | rfl | rfl | rfl <;>
        simp [isHandleFunc, isListen, disabledNotice]
    · subst he
      simp [isHandleFunc, isListen, disabledNotice]
    · exact startLogging_events config ticks e he
  refine ⟨by simp [main, h], fun e he => ⟨(hall e he).1, (hall e he).2.1⟩, ?_, ?_⟩
  · rw [List.count_eq_zero]
    intro hmem
    exact (hall _ hmem).2.2 rfl
  · simp [startHTTPServer, h]

/-- C7 as amended, at the configuration of `INCLUDE_HTTP=false`. -/
theorem main_http_disabled_witness :
    (main (initConfig (envWith "INCLUDE_HTTP" "false") 0) true []).serverGoroutine = none ∧
    (main (initConfig (envWith "INCLUDE_HTTP" "false") 0) true []).events.count
      disabledNotice = 0 ∧
    startHTTPServer (initConfig (envWith "INCLUDE_HTTP" "false") 0) true = [disabledNotice] :=
  ⟨(main_http_disabled (initConfig (envWith "INCLUDE_HTTP" "false") 0) true [] (by decide)).1,
   (main_http_disabled (initConfig (envWith "INCLUDE_HTTP" "false") 0) true []
      (by decide)).2.2.1,
   (main_http_disabled (initConfig (envWith "INCLUDE_HTTP" "false") 0) true []
      (by decide)).2.2.2⟩

/-! ## The tick counter -/

theorem length_le_of_sched (d : Int) (hd : 0 < d) (ticks : List Tick) (lo : Int)
    (hb : ∀ t ∈ ticks, lo < t.sched ∧ t.sched ≤ maxInt64)
    (hp : ticks.Pairwise (fun a b => a.sched + d ≤ b.sched)) :
    (ticks.length : Int) ≤ max 0 (maxInt64 - lo) := by
  induction ticks generalizing lo with
  | nil => simp
  | cons a rest ih =>
    rw [List.pairwise_cons] at hp
    have ha := hb a (List.mem_cons_self _ _)
    have hrest : ∀ t ∈ rest, a.sched < t.sched ∧ t.sched ≤ maxInt64 := by
      intro t ht
      have h1 := hp.1 t ht
      have h2 := hb t (List.mem_cons_of_mem _ ht)
      exact ⟨by omega, h2.2⟩
    have := ih a.sched hrest hp.2
    simp only [List.length_cons, Nat.cast_add, Nat.cast_one]
    omega

theorem TickerRun.length_le (config : Config) (ticks : List Tick)
    (h : TickerRun config ticks) : (ticks.length : Int) ≤ maxInt64 := by
  have := length_le_of_sched _ h.1 ticks 0 h.2.1 h.2.2
  unfold maxInt64 at *
  omega

theorem tickBody_count (config : Config) (tick : Tick) (c : Nat)
    (hc : ((c + 1 : Nat) : Int) ≤ maxInt64) :
    (tickBody config tick (c : Int)).1 = ((c + 1 : Nat) : Int) := by
  unfold maxInt64 at hc
  simp only [tickBody, wrapInt64]
  omega

theorem forRangeCount_eq (config : Config) (ticks : List Tick) (c : Nat)
    (hc : ((c + ticks.length : Nat) : Int) ≤ maxInt64) :
    forRangeCount config ticks (c : Int) = ((c + ticks.length : Nat) : Int) := by
  induction ticks generalizing c with
  | nil => simp [forRangeCount]
  | cons t rest ih =>
    simp only [List.length_cons] at hc
    rw [forRangeCount, tickBody_count config t c (by push_cast at hc ⊢; omega),
      ih (c + 1) (by push_cast at hc ⊢; omega)]
    simp only [List.length_cons]
    congr 1
    omega

theorem statusCounts_tickBody (config : Config) (tick : Tick) (c : Int) :
    statusCounts (tickBody config tick c).2 = [(tickBody config tick c).1] := by
  simp only [tickBody, statusCounts]
  split_ifs <;> simp [List.filterMap_cons, statusCount, statusFormat_ne_infoFormat,
    infoFormat_ne_statusFormat]

theorem statusCounts_forRange (config : Config) (ticks : List Tick) (c : Nat)
    (hc : ((c + ticks.length : Nat) : Int) ≤ maxInt64) :
    statusCounts (forRange config ticks (c : Int))
      = (List.range' (c + 1) ticks.length).map (fun (n : Nat) => (n : Int)) := by
  induction ticks generalizing c with
  | nil => simp [forRange, statusCounts]
  | cons t rest ih =>
    simp only [List.length_cons] at hc
    have h1 := tickBody_count config t c (by push_cast at hc ⊢; omega)
    have h2 := statusCounts_tickBody config t (c : Int)
    unfold statusCounts at h2 ih ⊢
    rw [forRange, List.filterMap_append, h2, h1, ih (c + 1) (by push_cast at hc ⊢; omega)]
    simp [List.range'_succ]

theorem countP_tickBody_info (config : Config) (tick : Tick) (c : Int) :
    (tickBody config tick c).2.countP isInfo
      = if (tickBody config tick c).1 % 10 = 0 then 1 else 0 := by
  simp only [tickBody, goMod_eq_zero_iff]
  by_cases h10 : wrapInt64 (c + 1) % 10 = 0 <;>
  by_cases h50 : wrapInt64 (c + 1) % 50 = 0 <;>
  simp [h10, h50, List.countP_cons, isInfo, statusFormat_ne_infoFormat, warnFormat_ne_infoFormat]

theorem countP_tickBody_warn (config : Config) (tick : Tick) (c : Int) :
    (tickBody config tick c).2.countP isWarn
      = if (tickBody config tick c).1 % 50 = 0 then 1 else 0 := by
  simp only [tickBody, goMod_eq_zero_iff]
  by_cases h10 : wrapInt64 (c + 1) % 10 = 0 <;>
  by_cases h50 : wrapInt64 (c + 1) % 50 = 0 <;>
  simp [h10, h50, List.countP_cons, isWarn, statusFormat_ne_warnFormat, infoFormat_ne_warnFormat]

theorem countP_forRange (config : Config) (ticks : List Tick) (c : Nat)
    (hc : ((c + ticks.length : Nat) : Int) ≤ maxInt64) :
    (forRange config ticks (c : Int)).countP isInfo + c / 10 = (c + ticks.length) / 10 ∧
    (forRange config ticks (c : Int)).countP isWarn + c / 50 = (c + ticks.length) / 50 := by
  induction ticks generalizing c with
  | nil => simp [forRange]
  | cons t rest ih =>
    simp only [List.length_cons] at hc
    have h1 := tickBody_count config t c (by push_cast at hc ⊢; omega)
    have ih1 := ih (c + 1) (by push_cast at hc ⊢; omega)
    rw [forRange, List.countP_append, List.countP_append, countP_tickBody_info,
      countP_tickBody_warn, h1]
    simp only [List.length_cons]
    constructor
    · split_ifs with h <;> omega
    · split_ifs with h <;> omega

theorem TickerRun.take (config : Config) (ticks : List Tick) (n : Nat)
    (h : TickerRun config ticks) : TickerRun config (ticks.take n) :=
  ⟨h.1, fun t ht => h.2.1 t (List.mem_of_mem_take ht),
    h.2.2.sublist (List.take_sublist n ticks)⟩

theorem forRange_append (config : Config) (xs ys : List Tick) (c : Int) :
    forRange config (xs ++ ys) c
      = forRange config xs c ++ forRange config ys (forRangeCount config xs c) := by
  induction xs generalizing c with
  | nil => simp [forRange, forRangeCount]
  | cons t rest ih => simp [forRange, forRangeCount, ih]

/-- The events of the first `n` deliveries are the beginning of the events of the
whole run. -/
theorem startLogging_take (config : Config) (ticks : List Tick) (n : Nat) :
    startLogging config (ticks.take n) <+: startLogging config ticks := by
  unfold startLogging
  cases NewTicker (tickerDuration config) with
  | error msg => exact List.prefix_refl _
  | ok d =>
    simp only []
    conv_rhs => rw [← List.take_append_drop n ticks, forRange_append]
    exact List.prefix_append _ _

/-- C2: in `startLogging`, over the deliveries of the ticker it created, the tick
counter is `k` after the first `k` ticks, for every `k ≥ 0` (it starts at 0,
increases by exactly 1 on every tick and is never reset); the status line
emitted on the `n`-th tick carries counter value `n` for every `n ≥ 1`; and the
values carried by successive status lines are strictly increasing. -/
theorem status_counter (config : Config) (ticks : List Tick) (h : TickerRun config ticks) :
    (∀ k, k ≤ ticks.length → logCountAfter config (ticks.take k) = (k : Int)) ∧
    (∀ n, 1 ≤ n → n ≤ ticks.length →
      (statusCounts (startLogging config ticks))[n - 1]? = some (n : Int)) ∧
    (statusCounts (startLogging config ticks)).Pairwise (fun a b => a < b) := by
  have hlen := TickerRun.length_le config ticks h
  have hs : statusCounts (startLogging config ticks)
      = (List.range' 1 ticks.length).map (fun (n : Nat) => (n : Int)) := by
    rw [startLogging_of_positive _ _ h.1]
    have := statusCounts_forRange config ticks 0 (by simpa using hlen)
    simpa using this
  refine ⟨?_, ?_, ?_⟩
  · intro k hk
    have := forRangeCount_eq config (ticks.take k) 0 (by
      simp only [List.length_take, Nat.zero_add]
      have : min k ticks.length = k := Nat.min_eq_left hk
      rw [this]
      have : (k : Int) ≤ ticks.length := by exact_mod_cast hk
      omega)
    simpa [logCountAfter, Nat.min_eq_left hk] using this
  · intro n h1 hn
    rw [hs, List.getElem?_map, List.getElem?_range' _ _ (by omega)]
    simp only [Option.map_some']
    congr 2
    omega
  · rw [hs, List.pairwise_map]
    exact (List.pairwise_lt_range' 1 ticks.length).imp (fun hab => by exact_mod_cast hab)

/-- C2 at a concrete run: three deliveries of the one-second ticker of the
default configuration; the third status line carries 3. -/
theorem status_counter_witness :
    TickerRun (initConfig (envWith "HOSTNAME" "box1") 0) (secondTicks 3) ∧
    (statusCounts (startLogging (initConfig (envWith "HOSTNAME" "box1") 0)
      (secondTicks 3)))[3 - 1]? = some ((3 : Nat) : Int) :=
  ⟨by decide,
   (status_counter (initConfig (envWith "HOSTNAME" "box1") 0) (secondTicks 3)
      (by decide)).2.1 3 (by decide) (by decide)⟩

/-- C10: for every `n ≥ 0`, after the first `n` ticks of `startLogging` (over the
deliveries of the ticker it created) the number of INFO annotation lines emitted
is `n / 10` rounded down and the number of WARN annotation lines is `n / 50`
rounded down. -/
theorem annotation_totals (config : Config) (ticks : List Tick)
    (h : TickerRun config ticks) (n : Nat) (hn : n ≤ ticks.length) :
    (startLogging config (ticks.take n)).countP isInfo = n / 10 ∧
    (startLogging config (ticks.take n)).countP isWarn = n / 50 := by
  have hlen := TickerRun.length_le config _ (TickerRun.take config ticks n h)
  rw [startLogging_of_positive _ _ h.1]
  have := countP_forRange config (ticks.take n) 0 (by simpa using hlen)
  simpa [Nat.min_eq_left hn] using this

/-- C10 at a concrete run, 50 deliveries of the one-second ticker of the default
configuration: after 10 ticks the INFO annotation has been emitted exactly once,
and after 50 ticks the WARN annotation has been emitted exactly once. -/
theorem annotation_totals_witness :
    TickerRun (initConfig (envWith "HOSTNAME" "box1") 0) (secondTicks 50) ∧
    (startLogging (initConfig (envWith "HOSTNAME" "box1") 0)
      ((secondTicks 50).take 10)).countP isInfo = 1 ∧
    (startLogging (initConfig (envWith "HOSTNAME" "box1") 0)
      ((secondTicks 50).take 50)).countP isWarn = 1 :=
  ⟨by decide,
   (annotation_totals (initConfig (envWith "HOSTNAME" "box1") 0) (secondTicks 50)
      (by decide) 10 (by decide)).1,
   (annotation_totals (initConfig (envWith "HOSTNAME" "box1") 0) (secondTicks 50)
      (by decide) 50 (by decide)).2⟩

/-! ## The health body read back as JSON -/

theorem healthBody_data (timestamp hostname uptime : GoString) :
    healthBody timestamp hostname uptime
      = 123 :: 34 :: (bytes "status" ++ 34 :: 58 ::
        34 :: (bytes "healthy" ++ 34 :: 44 ::
        34 :: (bytes "timestamp" ++ 34 :: 58 ::
        34 :: (timestamp ++ 34 :: 44 ::
        34 :: (bytes "hostname" ++ 34 :: 58 ::
        34 :: (hostname ++ 34 :: 44 ::
        34 :: (bytes "uptime" ++ 34 :: 58 ::
        34 :: (uptime ++ [34, 125])))))))) := by
  rfl

theorem seqLen_append (b : UInt8) (bs s : GoString) (h : seqLen b bs ≠ 0) :
    seqLen b (bs ++ s) = seqLen b bs := by
  rcases bs with _ | ⟨b1, _ | ⟨b2, _ | ⟨b3, t⟩⟩⟩
  · simp [seqLen] at h
  · rcases s with _ | ⟨s1, _ | ⟨s2, u⟩⟩ <;>
      (simp only [seqLen, List.cons_append, List.nil_append] at h ⊢
       try (split_ifs at h ⊢ <;> simp_all))
  · rcases s with _ | ⟨s1, u⟩ <;>
      (simp only [seqLen, List.cons_append, List.nil_append] at h ⊢
       try (split_ifs at h ⊢ <;> simp_all))
  · simp only [seqLen, List.cons_append]

/-- A Go string that is valid UTF-8 without double quote, backslash and control
character, followed by a double quote, is read back as it is. -/
theorem readChars_verbatim (p rest acc : GoString) (pending : Nat) (q : UInt8)
    (hq : q.toNat = 34) (hv : validUtf8From p pending = true) (hp : jsonPlain p = true) :
    readChars (p ++ q :: rest) pending acc = some (acc ++ p, rest) := by
  induction p generalizing pending acc with
  | nil =>
    simp only [validUtf8From, decide_eq_true_eq] at hv
    subst hv
    rw [List.nil_append, readChars.eq_def]
    simp [hq]
  | cons b bs ih =>
    have hpb : b.toNat ≠ 34 ∧ b.toNat ≠ 92 ∧ 32 ≤ b.toNat := by
      simp only [jsonPlain, List.all_cons, Bool.and_eq_true, bne_iff_ne, ne_eq,
        decide_eq_true_eq] at hp
      exact ⟨hp.1.1.1, hp.1.1.2, hp.1.2⟩
    have hps : jsonPlain bs = true := by
      simp only [jsonPlain, List.all_cons, Bool.and_eq_true] at hp ⊢
      exact hp.2
    cases pending with
    | succ n =>
      simp only [validUtf8From] at hv
      rw [List.cons_append, readChars, ih _ _ hv hps]
      simp
    | zero =>
      rw [List.cons_append, readChars.eq_def]
      simp only []
      rw [if_neg hpb.1, if_neg hpb.2.1, if_neg (by omega)]
      simp only [validUtf8From] at hv
      by_cases h128 : b.toNat < 128
      · rw [if_pos h128] at hv ⊢
        rw [ih _ _ hv hps]
        simp
      · rw [if_neg h128] at hv ⊢
        cases hl : seqLen b bs with
        | zero => simp [hl] at hv
        | succ n =>
          rw [hl] at hv
          simp only [] at hv
          rw [seqLen_append b bs _ (by omega), hl]
          simp only []
          rw [ih _ _ hv hps]
          simp

theorem readString_verbatim (p rest : GoString) (q q' : UInt8) (hq : q.toNat = 34)
    (hq' : q'.toNat = 34) (hp : jsonVerbatim p = true) :
    readString (q :: (p ++ q' :: rest)) = some (p, rest) := by
  simp only [jsonVerbatim, validUtf8, Bool.and_eq_true] at hp
  rw [readString, if_pos hq, readChars_verbatim p rest [] 0 q' hq' hp.1 hp.2]
  simp

theorem skipSpace_quote (rest : GoString) : skipSpace (34 :: rest) = 34 :: rest := by
  rw [skipSpace, if_neg (by decide)]

/-- Reading one member `"k":"v"` whose strings are held as they are, followed by
the byte `d`, which is not white space. -/
theorem readMember_verbatim (fuel : Nat) (k v : GoString) (d : UInt8) (rest : GoString)
    (hk : jsonVerbatim k = true) (hv : jsonVerbatim v = true) (hd : isJsonSpace d = false) :
    readMembers (fuel + 1) (34 :: (k ++ 34 :: 58 :: 34 :: (v ++ 34 :: d :: rest)))
      = if d.toNat = 44 then (readMembers fuel rest).map (fun ms => (k, v) :: ms)
        else if d.toNat = 125 then (if skipSpace rest = [] then some [(k, v)] else none)
        else none := by
  rw [readMembers, skipSpace_quote, readString_verbatim k _ _ _ (by decide) (by decide) hk]
  simp only []
  rw [skipSpace, if_neg (by decide)]
  simp only []
  rw [if_pos (by decide), skipSpace_quote,
    readString_verbatim v _ _ _ (by decide) (by decide) hv]
  simp only []
  rw [skipSpace, if_neg (by simp [hd])]

theorem readObject_healthBody (timestamp hostname uptime : GoString)
    (ht : jsonVerbatim timestamp = true) (hh : jsonVerbatim hostname = true)
    (hu : jsonVerbatim uptime = true) :
    readObject (healthBody timestamp hostname uptime)
      = some [(bytes "status", bytes "healthy"), (bytes "timestamp", timestamp),
          (bytes "hostname", hostname), (bytes "uptime", uptime)] := by
  have hlen : 4 ≤ (healthBody timestamp hostname uptime).length := by
    rw [healthBody_data]
    simp only [List.length_cons, List.length_append]
    omega
  obtain ⟨k, hk⟩ := Nat.exists_eq_add_of_le' hlen
  rw [readObject, hk, healthBody_data, skipSpace, if_neg (by decide)]
  simp only []
  rw [if_pos (by decide), skipSpace_quote]
  simp only []
  rw [if_neg (by decide),
    readMember_verbatim _ (bytes "status") (bytes "healthy") _ _ (by decide) (by decide)
      (by decide),
    if_pos (by decide),
    readMember_verbatim _ (bytes "timestamp") timestamp _ _ (by decide) ht (by decide),
    if_pos (by decide),
    readMember_verbatim _ (bytes "hostname") hostname _ _ (by decide) hh (by decide),
    if_pos (by decide),
    readMember_verbatim _ (bytes "uptime") uptime _ _ (by decide) hu (by decide),
    if_neg (by decide), if_pos (by decide)]
  simp [skipSpace]

/-! ### Texts are valid UTF-8 -/

theorem toNat_ofNat_small (k : Nat) (h : k < 256) : (UInt8.ofNat k).toNat = k := by
  simp [UInt8.toNat, UInt8.ofNat, Fin.ofNat, Nat.mod_eq_of_lt h]

theorem seqLen_of_seq2 (b b1 : UInt8) (t : GoString) (h : seq2 b b1 = true) :
    seqLen b (b1 :: t) = 2 := by
  rcases t with _ | ⟨b2, _ | ⟨b3, u⟩⟩ <;> simp [seqLen, h]

theorem seqLen_of_seq3 (b b1 b2 : UInt8) (t : GoString) (h2 : seq2 b b1 = false)
    (h : seq3 b b1 b2 = true) : seqLen b (b1 :: b2 :: t) = 3 := by
  rcases t with _ | ⟨b3, u⟩ <;> simp [seqLen, h2, h]

theorem seqLen_of_seq4 (b b1 b2 b3 : UInt8) (t : GoString) (h2 : seq2 b b1 = false)
    (h3 : seq3 b b1 b2 = false) (h : seq4 b b1 b2 b3 = true) :
    seqLen b (b1 :: b2 :: b3 :: t) = 4 := by
  simp [seqLen, h2, h3, h]

theorem validUtf8From_one (b : UInt8) (rest : GoString) (h : b.toNat < 128) :
    validUtf8From (b :: rest) 0 = validUtf8From rest 0 := by
  rw [validUtf8From, if_pos h]

theorem validUtf8From_two (b b1 : UInt8) (rest : GoString) (hb : ¬ b.toNat < 128)
    (h : seq2 b b1 = true) : validUtf8From (b :: b1 :: rest) 0 = validUtf8From rest 0 := by
  rw [validUtf8From, if_neg hb, seqLen_of_seq2 _ _ _ h]
  simp only [validUtf8From]

theorem validUtf8From_three (b b1 b2 : UInt8) (rest : GoString) (hb : ¬ b.toNat < 128)
    (h2 : seq2 b b1 = false) (h : seq3 b b1 b2 = true) :
    validUtf8From (b :: b1 :: b2 :: rest) 0 = validUtf8From rest 0 := by
  rw [validUtf8From, if_neg hb, seqLen_of_seq3 _ _ _ _ h2 h]
  simp only [validUtf8From]

theorem validUtf8From_four (b b1 b2 b3 : UInt8) (rest : GoString) (hb : ¬ b.toNat < 128)
    (h2 : seq2 b b1 = false) (h3 : seq3 b b1 b2 = false) (h : seq4 b b1 b2 b3 = true) :
    validUtf8From (b :: b1 :: b2 :: b3 :: rest) 0 = validUtf8From rest 0 := by
  rw [validUtf8From, if_neg hb, seqLen_of_seq4 _ _ _ _ _ h2 h3 h]
  simp only [validUtf8From]

theorem validUtf8From_encode (n : Nat) (rest : GoString)
    (hn : n < 55296 ∨ (57343 < n ∧ n < 1114112)) :
    validUtf8From (utf8Encode n ++ rest) 0 = validUtf8From rest 0 := by
  unfold utf8Encode
  split_ifs with h1 h2 h3
  · exact validUtf8From_one _ rest (by rw [toNat_ofNat_small n (by omega)]; exact h1)
  · have e0 := toNat_ofNat_small (192 + n / 64) (by omega)
    have e1 := toNat_ofNat_small (128 + n % 64) (by omega)
    refine validUtf8From_two _ _ rest (by rw [e0]; omega) ?_
    simp only [seq2, isCont, e0, e1, Bool.and_eq_true, decide_eq_true_eq]
    omega
  · have e0 := toNat_ofNat_small (224 + n / 4096) (by omega)
    have e1 := toNat_ofNat_small (128 + n / 64 % 64) (by omega)
    have e2 := toNat_ofNat_small (128 + n % 64) (by omega)
    refine validUtf8From_three _ _ _ rest (by rw [e0]; omega) ?_ ?_
    · simp only [seq2, isCont, e0, e1, Bool.and_eq_false_iff, decide_eq_false_iff_not]
      omega
    · simp only [seq3, isCont, e0, e1, e2, Bool.and_eq_true, Bool.or_eq_true,
        decide_eq_true_eq]
      omega
  · have e0 := toNat_ofNat_small (240 + n / 262144) (by omega)
    have e1 := toNat_ofNat_small (128 + n / 4096 % 64) (by omega)
    have e2 := toNat_ofNat_small (128 + n / 64 % 64) (by omega)
    have e3 := toNat_ofNat_small (128 + n % 64) (by omega)
    refine validUtf8From_four _ _ _ _ rest (by rw [e0]; omega) ?_ ?_ ?_
    · simp only [seq2, isCont, e0, e1, Bool.and_eq_false_iff, decide_eq_false_iff_not]
      omega
    · simp only [seq3, isCont, e0, e1, e2, Bool.and_eq_false_iff, Bool.or_eq_false_iff,
        decide_eq_false_iff_not]
      omega
    · simp only [seq4, isCont, e0, e1, e2, e3, Bool.and_eq_true, Bool.or_eq_true,
        decide_eq_true_eq]
      omega

theorem char_scalar (c : Char) : c.toNat < 55296 ∨ (57343 < c.toNat ∧ c.toNat < 1114112) :=
  c.valid

/-- The bytes of every text are valid UTF-8. -/
theorem validUtf8_bytes (s : String) : validUtf8 (bytes s) = true := by
  unfold validUtf8 bytes
  induction s.data with
  | nil => rfl
  | cons c cs ih => rw [bytesOf, validUtf8From_encode _ _ (char_scalar c), ih]

theorem jsonPlain_encode (n : Nat) (hn : n < 1114112)
    (hp : n ≠ 34 ∧ n ≠ 92 ∧ 32 ≤ n) : jsonPlain (utf8Encode n) = true := by
  unfold utf8Encode
  split_ifs with h1 h2 h3
  · have e0 := toNat_ofNat_small n (by omega)
    simp only [jsonPlain, List.all_cons, List.all_nil, e0, Bool.and_eq_true, bne_iff_ne,
      ne_eq, decide_eq_true_eq, Bool.and_true]
    omega
  · have e0 := toNat_ofNat_small (192 + n / 64) (by omega)
    have e1 := toNat_ofNat_small (128 + n % 64) (by omega)
    simp only [jsonPlain, List.all_cons, List.all_nil, e0, e1, Bool.and_eq_true, bne_iff_ne,
      ne_eq, decide_eq_true_eq, Bool.and_true]
    omega
  · have e0 := toNat_ofNat_small (224 + n / 4096) (by omega)
    have e1 := toNat_ofNat_small (128 + n / 64 % 64) (by omega)
    have e2 := toNat_ofNat_small (128 + n % 64) (by omega)
    simp only [jsonPlain, List.all_cons, List.all_nil, e0, e1, e2, Bool.and_eq_true,
      bne_iff_ne, ne_eq, decide_eq_true_eq, Bool.and_true]
    omega
  · have e0 := toNat_ofNat_small (240 + n / 262144) (by omega)
    have e1 := toNat_ofNat_small (128 + n / 4096 % 64) (by omega)
    have e2 := toNat_ofNat_small (128 + n / 64 % 64) (by omega)
    have e3 := toNat_ofNat_small (128 + n % 64) (by omega)
    simp only [jsonPlain, List.all_cons, List.all_nil, e0, e1, e2, e3, Bool.and_eq_true,
      bne_iff_ne, ne_eq, decide_eq_true_eq, Bool.and_true]
    omega

theorem jsonPlain_bytesOf (cs : List Char)
    (h : cs.all (fun c => c.toNat != 34 && c.toNat != 92 && decide (32 ≤ c.toNat)) = true) :
    jsonPlain (bytesOf cs) = true := by
  induction cs with
  | nil => rfl
  | cons c cs ih =>
    simp only [List.all_cons, Bool.and_eq_true, bne_iff_ne, ne_eq, decide_eq_true_eq] at h
    have h1 := jsonPlain_encode c.toNat (by have := char_scalar c; omega)
      ⟨h.1.1.1, h.1.1.2, h.1.2⟩
    have h2 := ih (by simpa [List.all_eq_true] using h.2)
    unfold jsonPlain at h1 h2 ⊢
    rw [bytesOf, List.all_append, h1, h2]
    rfl

/-- The bytes of a text without double quote, backslash and control character
are held by a JSON string as they are. -/
theorem jsonVerbatim_bytes (s : String) (h : textPlain s = true) :
    jsonVerbatim (bytes s) = true := by
  simp only [jsonVerbatim, validUtf8_bytes s, Bool.true_and]
  exact jsonPlain_bytesOf s.data h

/-- The uptime that `healthHandler` computes on the bytes of a configuration is
the uptime `healthUptime` of that configuration. -/
theorem healthUptime_raw (config : Config) (now : Int) :
    Since now config.raw.StartTime = healthUptime config now := rfl

/-- C6 fails as stated, for four kinds of hostname.  For the hostname made of two
backslashes the body is a JSON object whose hostname field reads back as a single
backslash.  For the hostname of bytes 97, 255, 98, which is not valid UTF-8, the
hostname field reads back as 97, 239, 191, 189, 98: the byte 255 has become the
replacement character.  For the hostnames `x"y` and `a`, line feed, `b` the body
is not a JSON object at all. -/
theorem health_hostname_not_read_back :
    jsonField (healthHandler (fun _ => bytes "1m2.5s")
        { LogInterval := 1, ServerPort := 8080, LogMessage := bytes "Logger is running",
          IncludeHTTP := true, Hostname := bytes "\\\\", StartTime := 0 }
        62500000000 (bytes "2024-01-01T00:01:02Z") Response.empty).body (bytes "hostname")
      = some (bytes "\\") ∧
    bytes "\\" ≠ bytes "\\\\" ∧
    jsonField (healthHandler (fun _ => bytes "1m2.5s")
        { LogInterval := 1, ServerPort := 8080, LogMessage := bytes "Logger is running",
          IncludeHTTP := true, Hostname := [97, 255, 98], StartTime := 0 }
        62500000000 (bytes "2024-01-01T00:01:02Z") Response.empty).body (bytes "hostname")
      = some [97, 239, 191, 189, 98] ∧
    ([97, 239, 191, 189, 98] : GoString) ≠ [97, 255, 98] ∧
    jsonPlain [97, 255, 98] = true ∧
    readObject (healthHandler (fun _ => bytes "1m2.5s")
        { LogInterval := 1, ServerPort := 8080, LogMessage := bytes "Logger is running",
          IncludeHTTP := true, Hostname := bytes "x\"y", StartTime := 0 }
        62500000000 (bytes "2024-01-01T00:01:02Z") Response.empty).body = none ∧
    readObject (healthHandler (fun _ => bytes "1m2.5s")
        { LogInterval := 1, ServerPort := 8080, LogMessage := bytes "Logger is running",
          IncludeHTTP := true, Hostname := bytes "a\nb", StartTime := 0 }
        62500000000 (bytes "2024-01-01T00:01:02Z") Response.empty).body = none := by
  decide

/-- C6 as amended: for every configured hostname `h`, a Go string, that is valid
UTF-8 and contains no double quote, no backslash and no control character, and
with the timestamp and uptime strings likewise, `healthHandler` answers a fresh
request with status 200 and `Content-Type: application/json`, and its body is
the JSON object with the members `status` = "healthy", `timestamp`, `hostname`
and `uptime` in this order, whose hostname field, read back as JSON, equals
`h`. -/
theorem health_json (render : Int → GoString) (config : RawConfig) (now : Int)
    (timestamp : GoString) (ht : jsonVerbatim timestamp = true)
    (hh : jsonVerbatim config.Hostname = true)
    (hu : jsonVerbatim (render (Since now config.StartTime)) = true) :
    (healthHandler render config now timestamp Response.empty).status = some 200 ∧
    (healthHandler render config now timestamp Response.empty).headerValue "Content-Type"
      = some "application/json" ∧
    readObject (healthHandler render config now timestamp Response.empty).body
      = some [(bytes "status", bytes "healthy"), (bytes "timestamp", timestamp),
          (bytes "hostname", config.Hostname),
          (bytes "uptime", render (Since now config.StartTime))] ∧
    jsonField (healthHandler render config now timestamp Response.empty).body
      (bytes "hostname") = some config.Hostname := by
  have hb : (healthHandler render config now timestamp Response.empty).body
      = healthBody timestamp config.Hostname (render (Since now config.StartTime)) := by
    simp [healthHandler, Response.write, Response.setHeader, Response.empty]
  have hr := readObject_healthBody timestamp config.Hostname
    (render (Since now config.StartTime)) ht hh hu
  refine ⟨rfl, ?_, by rw [hb, hr], ?_⟩
  · simp [healthHandler, Response.write, Response.setHeader, Response.empty,
      Response.headerValue]
  · rw [jsonField, hb, hr]
    simp only [List.find?]
    rw [show (bytes "status" == bytes "hostname") = false from by decide,
      show (bytes "timestamp" == bytes "hostname") = false from by decide,
      show (bytes "hostname" == bytes "hostname") = true from by decide]
    rfl

/-- C6 as amended, at the configuration that `init` builds for `HOSTNAME=box1`. -/
theorem health_json_witness :
    jsonField (healthHandler (fun _ => bytes "1m2.5s")
        (initConfig (envWith "HOSTNAME" "box1") 0).raw
        62500000000 (bytes "2024-01-01T00:01:02Z") Response.empty).body (bytes "hostname")
      = some (bytes "box1") :=
  (health_json (fun _ => bytes "1m2.5s") (initConfig (envWith "HOSTNAME" "box1") 0).raw
    62500000000 (bytes "2024-01-01T00:01:02Z") (by decide) (by decide) (by decide)).2.2.2

end GoDockerDemo
